import Mathlib

/-!
Shallow embedding of the orchestration layer of the frida-tool-example
repository (src/lib/application.ts and the DeviceController revision of
src/lib/index.ts), together with theorems settling the frozen claims
about it.  Pure fragments of the TypeScript become Lean functions;
stateful handlers become explicit state-passing functions that also
return the list of console messages or operations they emit; fallible
steps are parameterized by an environment recording the outcome of each
external call.
-/

namespace FridaTool

/-- A live OS process as reported by the device: `frida.Process` restricted
to the fields the orchestrator uses (`pid`, `name`). -/
structure Process where
  pid : Nat
  name : String
deriving DecidableEq, Repr

/-- Log levels of delegate console messages (`frida.LogLevel`). -/
inductive LogLevel where
  | info
  | warning
  | error
deriving DecidableEq, Repr

/-- One `delegate.onConsoleMessage(scope, level, text)` call. -/
structure ConsoleMessage where
  scope : String
  level : LogLevel
  text : String
deriving DecidableEq, Repr

/-- Session detach reasons (`frida.SessionDetachReason`). -/
inductive SessionDetachReason where
  | applicationRequested
  | processReplaced
  | processTerminated
  | connectionTerminated
  | deviceLost
  | serverTerminated
deriving DecidableEq, Repr

/-- The string value of each detach reason, as in the frida enum. -/
def SessionDetachReason.code : SessionDetachReason → String
  | .applicationRequested => "application-requested"
  | .processReplaced => "process-replaced"
  | .processTerminated => "process-terminated"
  | .connectionTerminated => "connection-terminated"
  | .deviceLost => "device-lost"
  | .serverTerminated => "server-terminated"

/-- The fatal-detach message construction from the uninjected handlers:
`reason[0].toUpperCase()` concatenated with `reason.substr(1)` in which a
global regex replace turns every hyphen into a space — capitalize the
first character, and in the rest replace every hyphen with a space. -/
def humanizeReason (s : String) : String :=
  match s.data with
  | [] => ""
  | c :: rest => String.mk (c.toUpper :: rest.map (fun ch => if ch = '-' then ' ' else ch))

/-- JS template-literal stringification of a plain `Process` object
(`frida.Process` has no custom `toString`, so `${...}` yields
"[object Object]"); used by the DeviceController handler, whose local
`name` is the whole map entry. -/
def jsShowProcess (_ : Process) : String := "[object Object]"

/-- `Application.findNamedProcesses` from src/lib/application.ts: wraps the
whole body in try/catch and returns `[]` on any enumeration failure;
otherwise filters out already-instrumented pids, then keeps the processes
with the requested name.  The device enumeration is passed in as its
outcome (`Except`). -/
def findNamedProcesses (enumeration : Except String (List Process))
    (agents : List Nat) (targetName : String) : Except String (List Process) :=
  match enumeration with
  | .error _ => .ok []
  | .ok processes =>
      let untraced := processes.filter (fun p => decide (p.pid ∉ agents))
      let named := untraced.filter (fun p => p.name = targetName)
      .ok named

/-- `Application.findNumberedProcesses` (identical in
src/lib/application.ts and the DeviceController revision of
src/lib/index.ts): enumerate processes, build an id→process map (a JS
`Map` built from entries keeps the last entry for a duplicated key),
collect the requested ids that are absent, fail with one aggregated
message if any, otherwise return the mapped processes in request order. -/
def findNumberedProcesses (ids : List Nat) (processes : List Process) :
    Except String (List Process) :=
  let processesById := fun pid => processes.reverse.find? (fun p => p.pid = pid)
  let notFound := ids.filter (fun pid => (processesById pid).isNone)
  if notFound.length ≠ 0 then
    .error ("Failed to find PIDs: " ++ String.intercalate ", " (notFound.map toString))
  else
    .ok (ids.filterMap processesById)

/-- The value a controller's deferred terminal result settles to. -/
inductive Settled where
  | success
  | failure (message : String)
deriving DecidableEq, Repr

/-- Settle-once semantics of the deferred promise pair (`onSuccess` /
`onFailure`): the first settlement wins, later calls are ignored. -/
def settle (r : Option Settled) (v : Settled) : Option Settled :=
  match r with
  | none => some v
  | some w => some w

/-- State of the DeviceController of src/lib/index.ts that the uninjected
handler reads and writes: the tracked-process map, the agent map (keys
only), whether the continuous enlistment task is running, the terminal
result, and the device name used in messages. -/
structure ControllerState where
  processes : List Process
  agents : List Nat
  enlistTask : Bool
  result : Option Settled
  deviceName : String
deriving DecidableEq, Repr

/-- `Map.get` on the tracked-process map (keyed by pid). -/
def lookupProcess (l : List Process) (pid : Nat) : Option Process :=
  l.find? (fun p => p.pid = pid)

/-- `Map.delete` on the tracked-process map (keyed by pid). -/
def removeProcess (l : List Process) (pid : Nat) : List Process :=
  l.filter (fun p => p.pid ≠ pid)

/-- `Map.delete` on the agent map (keys only). -/
def removeAgent (l : List Nat) (pid : Nat) : List Nat :=
  l.filter (fun q => q ≠ pid)

/-- The `uninjected` handler installed by `DeviceController.#instrument`
(src/lib/index.ts, lines 1093–1127).  Deletes the agent; if the pid is
tracked, deletes it and dispatches on the reason: `application-requested`
falls to the final check, `process-replaced` returns early,
`process-terminated` emits a warning (and a second one when the tracked
map became empty) then falls to the final check, `connection-terminated`
and `device-lost` fail the terminal result with the humanized reason; the
final check settles success when no enlistment task runs and the agent
map is empty.  Returns the new state and the emitted console messages. -/
def ctrlOnUninjected (st : ControllerState) (pid : Nat)
    (reason : SessionDetachReason) : ControllerState × List ConsoleMessage :=
  let agents := removeAgent st.agents pid
  let step :=
    match lookupProcess st.processes pid with
    | none => (st.processes, st.result, ([] : List ConsoleMessage), false)
    | some entry =>
        let processes := removeProcess st.processes pid
        match reason with
        | .applicationRequested => (processes, st.result, [], false)
        | .processReplaced => (processes, st.result, [], true)
        | .processTerminated =>
            let m1 : ConsoleMessage :=
              ⟨"application", .warning,
                "Detached PID: " ++ jsShowProcess entry ++ ":" ++ toString pid ++ "@" ++
                  st.deviceName ++ ", " ++ toString processes.length ++ " remaining"⟩
            let msgs :=
              if processes.length = 0 then
                [m1, ⟨"application", .warning, "All processes lost on host: " ++ st.deviceName⟩]
              else [m1]
            (processes, st.result, msgs, false)
        | .connectionTerminated | .deviceLost =>
            (processes, settle st.result (.failure (humanizeReason reason.code)), [], false)
        | .serverTerminated => (processes, st.result, [], false)
  let processes := step.1
  let result1 := step.2.1
  let msgs := step.2.2.1
  let earlyReturn := step.2.2.2
  let result2 :=
    if ¬earlyReturn ∧ st.enlistTask = false ∧ agents.length = 0 then
      settle result1 .success
    else result1
  ({ st with processes := processes, agents := agents, result := result2 }, msgs)

/-- State of the single-device Application of src/lib/application.ts that
its uninjected handler reads and writes. -/
structure AppState where
  processes : List Process
  agents : List Nat
  result : Option Settled
deriving DecidableEq, Repr

/-- The `uninjected` handler installed by `Application.instrument`
(src/lib/application.ts, lines 136–163).  Deletes the agent; if the pid
is tracked, deletes it and dispatches on the reason.  Note the
`process-terminated` case: with tracked pids remaining it emits a warning
and returns early; with none remaining it falls through into the
`connection-terminated` / `device-lost` branch, failing the terminal
result with the message built from the `process-terminated` reason code.
The final check settles success when the agent map is empty. -/
def appOnUninjected (st : AppState) (pid : Nat)
    (reason : SessionDetachReason) : AppState × List ConsoleMessage :=
  let agents := removeAgent st.agents pid
  let step :=
    if (lookupProcess st.processes pid).isSome then
      let processes := removeProcess st.processes pid
      match reason with
      | .applicationRequested => (processes, st.result, ([] : List ConsoleMessage), false)
      | .processReplaced => (processes, st.result, [], true)
      | .processTerminated =>
          if processes.length ≠ 0 then
            (processes, st.result,
              [⟨"application", .warning, "Detached PID: " ++ toString pid⟩], true)
          else
            (processes, settle st.result (.failure (humanizeReason reason.code)), [], false)
      | .connectionTerminated | .deviceLost =>
          (processes, settle st.result (.failure (humanizeReason reason.code)), [], false)
      | .serverTerminated => (processes, st.result, [], false)
    else (st.processes, st.result, [], false)
  let processes := step.1
  let result1 := step.2.1
  let msgs := step.2.2.1
  let earlyReturn := step.2.2.2
  let result2 :=
    if ¬earlyReturn ∧ agents.length = 0 then settle result1 .success else result1
  ({ st with processes := processes, agents := agents, result := result2 }, msgs)

/-- The two nullable resources an `Agent` owns while being built: the
session and the script, each modelled by an opaque numeric handle. -/
structure AgentState where
  session : Option Nat
  script : Option Nat
deriving DecidableEq, Repr

/-- One best-effort teardown step performed by `Agent.dispose`, recording
the handle it acted on and whether the underlying call threw (the failure
is swallowed by the inner try/catch either way). -/
inductive TeardownOp where
  | unloadScript (id : Nat) (failed : Bool)
  | detachSession (id : Nat) (failed : Bool)
deriving DecidableEq, Repr

/-- Whether a teardown op is the script-unload step. -/
def TeardownOp.isUnload : TeardownOp → Bool
  | .unloadScript _ _ => true
  | .detachSession _ _ => false

/-- `Agent.dispose` (src/lib/application.ts lines 406–430, identical in
src/lib/index.ts): if the script field is set, clear it and unload the
script swallowing any failure; then, if the session field is set, clear
it and detach swallowing any failure.  `unloadFails` / `detachFails` say
whether the respective underlying call throws.  Returns the new state and
the teardown steps performed, in order. -/
def Agent.dispose (a : AgentState) (unloadFails detachFails : Bool) :
    AgentState × List TeardownOp :=
  let scriptStep :=
    match a.script with
    | some s => ({ a with script := none }, [TeardownOp.unloadScript s unloadFails])
    | none => (a, ([] : List TeardownOp))
  let a1 := scriptStep.1
  let sessionStep :=
    match a1.session with
    | some s => ({ a1 with session := none }, [TeardownOp.detachSession s detachFails])
    | none => (a1, ([] : List TeardownOp))
  (sessionStep.1, scriptStep.2 ++ sessionStep.2)

/-- Outcomes of the external calls `Agent.inject` makes, in program order,
plus the behaviour of the teardown calls should dispose run. -/
structure InjectEnv where
  attachResult : Except String Nat
  enableChildGatingResult : Except String Unit
  createScriptResult : Except String Nat
  loadResult : Except String Unit
  initResult : Except String Unit
  unloadFails : Bool
  detachFails : Bool
deriving Repr

/-- Events observable during `Agent.inject`: the successful completion of
each step, and the teardown ops of the `dispose()` run from the catch
block. -/
inductive InjectEvent where
  | attached (session : Nat)
  | childGatingEnabled
  | scriptCreated (script : Nat)
  | scriptLoaded
  | initCompleted
  | teardown (op : TeardownOp)
deriving DecidableEq, Repr

/-- Whether an inject event is a teardown op. -/
def InjectEvent.isTeardown : InjectEvent → Bool
  | .teardown _ => true
  | _ => false

/-- `Agent.inject` (src/lib/application.ts lines 368–404, identical in
src/lib/index.ts): attach, connect the detach handler, enable child
gating, create the script, load it, call its `init()` export; on the
first failing step, run `dispose()` on the agent as built so far and
rethrow that step's error.  Returns the result (the fully built agent, or
the rethrown error) and the event trace. -/
def Agent.inject (env : InjectEnv) : Except String AgentState × List InjectEvent :=
  match env.attachResult with
  | .error e =>
      let d := Agent.dispose ⟨none, none⟩ env.unloadFails env.detachFails
      (.error e, d.2.map InjectEvent.teardown)
  | .ok session =>
      match env.enableChildGatingResult with
      | .error e =>
          let d := Agent.dispose ⟨some session, none⟩ env.unloadFails env.detachFails
          (.error e, [InjectEvent.attached session] ++ d.2.map InjectEvent.teardown)
      | .ok _ =>
          match env.createScriptResult with
          | .error e =>
              let d := Agent.dispose ⟨some session, none⟩ env.unloadFails env.detachFails
              (.error e, [InjectEvent.attached session, InjectEvent.childGatingEnabled] ++
                d.2.map InjectEvent.teardown)
          | .ok script =>
              match env.loadResult with
              | .error e =>
                  let d := Agent.dispose ⟨some session, some script⟩ env.unloadFails env.detachFails
                  (.error e,
                    [InjectEvent.attached session, InjectEvent.childGatingEnabled,
                      InjectEvent.scriptCreated script] ++ d.2.map InjectEvent.teardown)
              | .ok _ =>
                  match env.initResult with
                  | .error e =>
                      let d := Agent.dispose ⟨some session, some script⟩ env.unloadFails env.detachFails
                      (.error e,
                        [InjectEvent.attached session, InjectEvent.childGatingEnabled,
                          InjectEvent.scriptCreated script, InjectEvent.scriptLoaded] ++
                          d.2.map InjectEvent.teardown)
                  | .ok _ =>
                      (.ok ⟨some session, some script⟩,
                        [InjectEvent.attached session, InjectEvent.childGatingEnabled,
                          InjectEvent.scriptCreated script, InjectEvent.scriptLoaded,
                          InjectEvent.initCompleted])

/-- A spawn notification (`frida.Spawn` restricted to the fields the
by-gating handler uses). -/
structure Spawn where
  identifier : Option String
  pid : Nat
deriving DecidableEq, Repr

/-- What one run of the by-gating `onSpawnAdded` handler does with the
observed spawn: resolve the wait with a process, or resume the pid. -/
inductive GatingAction where
  | resolved (proc : Process)
  | resumed (pid : Nat)
deriving DecidableEq, Repr

/-- The `onSpawnAdded` handler of the by-gating wait
(src/lib/application.ts lines 275–291, identical in src/lib/index.ts):
enumerate processes and look up the spawned pid; if absent, resume it and
keep waiting; if its identifier or resolved name equals the awaited name,
resolve the wait with the process (no resume); otherwise resume it. -/
def onSpawnAdded (targetName : String) (enumerated : List Process) (sp : Spawn) :
    GatingAction :=
  match enumerated.find? (fun p => p.pid = sp.pid) with
  | none => .resumed sp.pid
  | some proc =>
      if sp.identifier = some targetName ∨ proc.name = targetName then .resolved proc
      else .resumed sp.pid

/-- The `device.resume` calls one run of the gating handler issues. -/
def gatingHandlerResumes : GatingAction → List Nat
  | .resolved _ => []
  | .resumed pid => [pid]

/-- A device-reported child (`frida.Child` restricted to the fields the
child-added handler uses). -/
structure Child where
  path : Option String
  identifier : Option String
  origin : String
  parentPid : Nat
  pid : Nat
deriving DecidableEq, Repr

/-- The display-name derivation inside `onChildAdded`
(src/lib/application.ts lines 90–113, identical in src/lib/index.ts):
start from null, assign the path if present, then assign the identifier
if present (overwriting the path), else for fork origin take the parent
agent's name when that agent exists, else `<unknown>`; finally append
" from " and the spawn origin. -/
def childDisplayName (agents : List (Nat × String)) (child : Child) : String :=
  let name1 : Option String :=
    match child.path with
    | some p => some p
    | none => none
  let name2 :=
    match child.identifier with
    | some i => some i
    | none => name1
  let name3 :=
    match name2 with
    | some n => some n
    | none =>
        if child.origin = "fork" then
          match agents.lookup child.parentPid with
          | some parentName => some parentName
          | none => none
        else none
  let chosen := name3.getD "<unknown>"
  chosen ++ " from " ++ child.origin

/-- Events observable during one run of `onChildAdded`. -/
inductive ChildEvent where
  | instrumentCalled (pid : Nat) (name : String)
  | resumeAttempted (pid : Nat)
  | errorLogged
deriving DecidableEq, Repr

/-- Outcomes of the external calls `onChildAdded` makes: whether
instrumenting the child throws, and whether the scheduler-wrapped resume
throws. -/
structure ChildEnv where
  instrumentResult : Except String Unit
  resumeFails : Bool
deriving Repr

/-- The `childAdded` handler (src/lib/application.ts lines 85–130,
identical in src/lib/index.ts): derive the display name, instrument the
child, resume it; any exception is caught, logged, and followed by a
best-effort resume of the child (its own failure swallowed). -/
def onChildAdded (agents : List (Nat × String)) (child : Child) (env : ChildEnv) :
    List ChildEvent :=
  let name := childDisplayName agents child
  match env.instrumentResult with
  | .error _ =>
      [ChildEvent.instrumentCalled child.pid name, ChildEvent.errorLogged,
        ChildEvent.resumeAttempted child.pid]
  | .ok _ =>
      if env.resumeFails then
        [ChildEvent.instrumentCalled child.pid name, ChildEvent.resumeAttempted child.pid,
          ChildEvent.errorLogged, ChildEvent.resumeAttempted child.pid]
      else
        [ChildEvent.instrumentCalled child.pid name, ChildEvent.resumeAttempted child.pid]

/-- The process-selector sum type of src/lib/config.ts. -/
inductive TargetProcess where
  | spawn (program : String)
  | byName (name : String)
  | allByName (name : String)
  | anyByName (name : String)
  | byIds (ids : List Nat)
  | byGating (name : String)
  | byFrontmost
deriving DecidableEq, Repr

/-- The guard `targetProcess.kind === "spawn" || targetProcess.kind ===
"by-gating"` of the resume step in `DeviceController.add`
(src/lib/index.ts lines 1063–1067) and `Application.run`
(src/lib/application.ts lines 67–71). -/
def resumesAfterInit : TargetProcess → Bool
  | .spawn _ => true
  | .byGating _ => true
  | _ => false

/-- Per-pid events of the initial setup path, in emission order. -/
inductive RunEvent where
  | attached (pid : Nat)
  | childGatingEnabled (pid : Nat)
  | scriptCreated (pid : Nat)
  | scriptLoaded (pid : Nat)
  | initCompleted (pid : Nat)
  | resumed (pid : Nat)
deriving DecidableEq, Repr

/-- The strictly sequential steps of instrumenting one pid (the successful
path of `Agent.inject`), ending with the completed initialization. -/
def instrumentEvents (pid : Nat) : List RunEvent :=
  [RunEvent.attached pid, RunEvent.childGatingEnabled pid, RunEvent.scriptCreated pid,
    RunEvent.scriptLoaded pid, RunEvent.initCompleted pid]

/-- The per-selector loop of `DeviceController.add` (src/lib/index.ts
lines 1055–1074; `Application.run` lines 61–73 is the same shape): for
each resolved process not already tracked, track it, instrument it (all
injection steps completing), and — only for `spawn` and `by-gating`
selectors — resume it right after initialization.  Returns the tracked
set and the event trace. -/
def addLoop (target : TargetProcess) : List Process → List Nat → List Nat × List RunEvent
  | [], tracked => (tracked, [])
  | p :: rest, tracked =>
      if tracked.contains p.pid then addLoop target rest tracked
      else
        let evs := instrumentEvents p.pid ++
          (if resumesAfterInit target then [RunEvent.resumed p.pid] else [])
        let r := addLoop target rest (tracked ++ [p.pid])
        (r.1, evs ++ r.2)

/-- One DeviceController as `Application.run` of src/lib/index.ts sees it:
its device id and the selector batches passed to its `add`, in order. -/
structure ControllerRec where
  deviceId : String
  batches : List (List TargetProcess)
deriving DecidableEq, Repr

/-- One iteration of the target loop in `Application.run`
(src/lib/index.ts lines 965–977): look up the controller for the target's
resolved device id; reuse it if present (adding the target's selectors),
otherwise create a new controller holding them. -/
def addTargetBatch (ctrls : List ControllerRec) (did : String)
    (procs : List TargetProcess) : List ControllerRec :=
  if ctrls.any (fun c => c.deviceId = did) then
    ctrls.map (fun c =>
      if c.deviceId = did then { c with batches := c.batches ++ [procs] } else c)
  else
    ctrls ++ [{ deviceId := did, batches := [procs] }]

/-- The whole target loop of `Application.run` (src/lib/index.ts lines
960–977), with each target already resolved to its device id. -/
def runControllers (targets : List (String × List TargetProcess)) : List ControllerRec :=
  targets.foldl (fun ctrls t => addTargetBatch ctrls t.1 t.2) []

/-- C10: in src/lib/application.ts, `findNamedProcesses` returns the empty
list instead of propagating an enumeration failure, so an all-by-name
resolution step never fails and an enumeration failure is
indistinguishable from zero matches at the caller. -/
theorem findNamedProcesses_neverFails (enumeration : Except String (List Process))
    (agents : List Nat) (targetName : String) :
    (∃ l, findNamedProcesses enumeration agents targetName = .ok l) ∧
    (∀ e, findNamedProcesses (.error e) agents targetName = .ok []) ∧
    (∀ e, findNamedProcesses (.error e) agents targetName =
      findNamedProcesses (.ok []) agents targetName) := by
  refine ⟨?_, fun e => rfl, fun e => rfl⟩
  cases enumeration with
  | error e => exact ⟨[], rfl⟩
  | ok ps => exact ⟨_, rfl⟩

/-- C4: `Agent.dispose` is idempotent (a second call performs no teardown
operations and cannot raise), within one call the script unload always
precedes the session detach, each step is attempted regardless of the
other failing, and both failures are swallowed (the outcome is the same
for every combination of failure flags). -/
theorem dispose_idempotentBestEffort (a : AgentState) (u d u' d' : Bool) :
    (Agent.dispose (Agent.dispose a u d).1 u' d' = ((Agent.dispose a u d).1, [])) ∧
    ((Agent.dispose a u d).1 = ⟨none, none⟩) ∧
    ((Agent.dispose a u d).2.filter TeardownOp.isUnload ++
      (Agent.dispose a u d).2.filter (fun op => !op.isUnload) = (Agent.dispose a u d).2) ∧
    (a.script.isSome → ∃ s, TeardownOp.unloadScript s u ∈ (Agent.dispose a u d).2) ∧
    (a.session.isSome → ∃ s, TeardownOp.detachSession s d ∈ (Agent.dispose a u d).2) := by
  obtain ⟨sess, scr⟩ := a
  cases sess <;> cases scr <;>
    simp [Agent.dispose, TeardownOp.isUnload]

/-- Witness for C4 at a fully-built agent with a failing unload. -/
theorem dispose_idempotentBestEffort_witness :
    (Agent.dispose (Agent.dispose ⟨some 1, some 2⟩ true false).1 false false =
      ((Agent.dispose ⟨some 1, some 2⟩ true false).1, [])) ∧
    ((Agent.dispose ⟨some 1, some 2⟩ true false).1 = ⟨none, none⟩) ∧
    ((Agent.dispose ⟨some 1, some 2⟩ true false).2.filter TeardownOp.isUnload ++
      (Agent.dispose ⟨some 1, some 2⟩ true false).2.filter (fun op => !op.isUnload) =
        (Agent.dispose ⟨some 1, some 2⟩ true false).2) ∧
    (∃ s, TeardownOp.unloadScript s true ∈ (Agent.dispose ⟨some 1, some 2⟩ true false).2) ∧
    (∃ s, TeardownOp.detachSession s false ∈ (Agent.dispose ⟨some 1, some 2⟩ true false).2) := by
  have h := dispose_idempotentBestEffort ⟨some 1, some 2⟩ true false false false
  exact ⟨h.1, h.2.1, h.2.2.1, h.2.2.2.1 (by decide), h.2.2.2.2 (by decide)⟩

/-- C7: a detach with reason connection-terminated or device-lost on a
tracked pid fails the pending terminal result with the reason string
humanized by capitalizing its first letter and replacing hyphens with
spaces ("device-lost" becomes "Device lost"). -/
theorem fatalDetach_failsWithHumanizedReason (st : AppState) (pid : Nat)
    (reason : SessionDetachReason)
    (htracked : (lookupProcess st.processes pid).isSome = true)
    (hpending : st.result = none)
    (hreason : reason = .connectionTerminated ∨ reason = .deviceLost) :
    (appOnUninjected st pid reason).1.result =
      some (.failure (humanizeReason reason.code)) ∧
    humanizeReason SessionDetachReason.connectionTerminated.code = "Connection terminated" ∧
    humanizeReason SessionDetachReason.deviceLost.code = "Device lost" := by
  refine ⟨?_, by decide, by decide⟩
  rcases hreason with h | h <;> subst h <;>
    · simp only [appOnUninjected, htracked, hpending, if_true]
      split <;> rfl

/-- Witness for C7: a device-lost detach on the only tracked pid. -/
theorem fatalDetach_failsWithHumanizedReason_witness :
    (appOnUninjected ⟨[⟨7, "x"⟩], [7], none⟩ 7 .deviceLost).1.result =
      some (.failure (humanizeReason SessionDetachReason.deviceLost.code)) ∧
    humanizeReason SessionDetachReason.connectionTerminated.code = "Connection terminated" ∧
    humanizeReason SessionDetachReason.deviceLost.code = "Device lost" :=
  fatalDetach_failsWithHumanizedReason ⟨[⟨7, "x"⟩], [7], none⟩ 7 .deviceLost
    (by decide) rfl (Or.inr rfl)

/-- C1 counterexample: in src/lib/application.ts, a process-terminated
detach on the last tracked pid does NOT resolve the terminal result as
success — the `process-terminated` case falls through into the fatal
branch and the result settles as failure "Process terminated" (the later
`onSuccess` call is ignored because the deferred already settled). -/
theorem appLastTerminatedSettlesFailure :
    (appOnUninjected ⟨[⟨7, "x"⟩], [7], none⟩ 7 .processTerminated).1.result =
      some (.failure "Process terminated") ∧
    (appOnUninjected ⟨[⟨7, "x"⟩], [7], none⟩ 7 .processTerminated).1.result ≠
      some .success := by
  refine ⟨by decide, by decide⟩

/-- C1 amended: a process-terminated detach with other tracked pids
remaining settles nothing and emits only a warning, in both handlers;
on the last tracked pid it settles success in the DeviceController of
src/lib/index.ts (no enlistment task, last agent), but in
src/lib/application.ts it falls through to the fatal branch and settles
failure "Process terminated". -/
theorem processTerminatedDetach_behaviour :
    (∀ (st : ControllerState) (entry : Process) (pid : Nat),
      st.processes = [entry] → entry.pid = pid → st.agents = [pid] →
      st.enlistTask = false → st.result = none →
      (ctrlOnUninjected st pid .processTerminated).1.result = some .success) ∧
    (∀ (st : ControllerState) (pid : Nat) (q : Process),
      (lookupProcess st.processes pid).isSome = true →
      q ∈ st.processes → q.pid ≠ pid → q.pid ∈ st.agents → st.result = none →
      (ctrlOnUninjected st pid .processTerminated).1.result = none ∧
      ((ctrlOnUninjected st pid .processTerminated).2.map ConsoleMessage.level =
        [.warning])) ∧
    (∀ (st : AppState) (pid : Nat) (q : Process),
      (lookupProcess st.processes pid).isSome = true →
      q ∈ st.processes → q.pid ≠ pid → st.result = none →
      (appOnUninjected st pid .processTerminated).1.result = none ∧
      ((appOnUninjected st pid .processTerminated).2.map ConsoleMessage.level =
        [.warning])) ∧
    (∀ (st : AppState) (entry : Process) (pid : Nat),
      st.processes = [entry] → entry.pid = pid → st.result = none →
      (appOnUninjected st pid .processTerminated).1.result =
        some (.failure "Process terminated")) := by
  refine ⟨?_, ?_, ?_, ?_⟩
  · intro st entry pid h1 h2 h3 h4 h5
    subst h2
    simp [ctrlOnUninjected, h1, h3, h4, h5, lookupProcess, removeProcess, removeAgent,
      settle, List.find?]
  · intro st pid q htracked hqmem hqpid hqagent hpending
    obtain ⟨entry, hentry⟩ := Option.isSome_iff_exists.mp htracked
    have hq' : q ∈ removeProcess st.processes pid := by
      simp [removeProcess, List.mem_filter, hqmem, hqpid]
    have hlen : (removeProcess st.processes pid).length ≠ 0 := by
      intro h0
      rw [List.length_eq_zero] at h0
      rw [h0] at hq'
      exact absurd hq' (List.not_mem_nil q)
    have ha' : q.pid ∈ removeAgent st.agents pid := by
      simp [removeAgent, List.mem_filter, hqagent, hqpid]
    have halen : (removeAgent st.agents pid).length ≠ 0 := by
      intro h0
      rw [List.length_eq_zero] at h0
      rw [h0] at ha'
      exact absurd ha' (List.not_mem_nil q.pid)
    constructor
    · simp [ctrlOnUninjected, hentry, hpending, hlen, halen]
    · simp [ctrlOnUninjected, hentry, hpending, hlen, halen]
  · intro st pid q htracked hqmem hqpid hpending
    obtain ⟨entry, hentry⟩ := Option.isSome_iff_exists.mp htracked
    have hq' : q ∈ removeProcess st.processes pid := by
      simp [removeProcess, List.mem_filter, hqmem, hqpid]
    have hlen : (removeProcess st.processes pid).length ≠ 0 := by
      intro h0
      rw [List.length_eq_zero] at h0
      rw [h0] at hq'
      exact absurd hq' (List.not_mem_nil q)
    constructor
    · simp [appOnUninjected, hentry, hpending, hlen, Option.isSome_iff_exists]
    · simp [appOnUninjected, hentry, hpending, hlen, Option.isSome_iff_exists]
  · intro st entry pid h1 h2 h5
    subst h2
    have hh : humanizeReason SessionDetachReason.processTerminated.code =
        "Process terminated" := by decide
    simp [appOnUninjected, h1, h5, lookupProcess, removeProcess, removeAgent, settle,
      List.find?, hh]

/-- Witness for C1 (amended), instantiating all four parts at concrete
states. -/
theorem processTerminatedDetach_behaviour_witness :
    (ctrlOnUninjected ⟨[⟨7, "x"⟩], [7], false, none, "dev"⟩ 7 .processTerminated).1.result =
      some .success ∧
    (ctrlOnUninjected ⟨[⟨7, "x"⟩, ⟨8, "y"⟩], [7, 8], false, none, "dev"⟩ 7
      .processTerminated).1.result = none ∧
    (appOnUninjected ⟨[⟨7, "x"⟩, ⟨8, "y"⟩], [7, 8], none⟩ 7 .processTerminated).1.result =
      none ∧
    (appOnUninjected ⟨[⟨9, "z"⟩], [], none⟩ 9 .processTerminated).1.result =
      some (.failure "Process terminated") := by
  refine ⟨?_, ?_, ?_, ?_⟩
  · exact processTerminatedDetach_behaviour.1 ⟨[⟨7, "x"⟩], [7], false, none, "dev"⟩
      ⟨7, "x"⟩ 7 rfl rfl rfl rfl rfl
  · exact (processTerminatedDetach_behaviour.2.1 ⟨[⟨7, "x"⟩, ⟨8, "y"⟩], [7, 8], false, none, "dev"⟩
      7 ⟨8, "y"⟩ (by decide) (by decide) (by decide) (by decide) rfl).1
  · exact (processTerminatedDetach_behaviour.2.2.1 ⟨[⟨7, "x"⟩, ⟨8, "y"⟩], [7, 8], none⟩
      7 ⟨8, "y"⟩ (by decide) (by decide) (by decide) rfl).1
  · exact processTerminatedDetach_behaviour.2.2.2 ⟨[⟨9, "z"⟩], [], none⟩ ⟨9, "z"⟩ 9 rfl rfl rfl

/-- C6 counterexample: when a child declares both a path and an
identifier, the code's later assignment lets the identifier win,
contradicting the claimed preference for the path. -/
theorem childDisplayName_identifierOverridesPath :
    childDisplayName [] ⟨some "p", some "i", "spawn", 0, 5⟩ = "i from spawn" ∧
    childDisplayName [] ⟨some "p", some "i", "spawn", 0, 5⟩ ≠ "p from spawn" := by
  refine ⟨by decide, by decide⟩

/-- C6 amended: the child display name prefers the child's declared
identifier, else its path, else — for fork origin — the parent agent's
name when that agent exists, else "<unknown>", suffixed with
" from " and the spawn origin; and whenever instrumenting the child
throws, the error is logged and the child is still resumed (indeed a
resume is attempted on every path). -/
theorem onChildAdded_nameAndResumeDiscipline (agents : List (Nat × String))
    (child : Child) (env : ChildEnv) :
    (∀ i, child.identifier = some i →
      childDisplayName agents child = i ++ " from " ++ child.origin) ∧
    (child.identifier = none → ∀ p, child.path = some p →
      childDisplayName agents child = p ++ " from " ++ child.origin) ∧
    (child.identifier = none → child.path = none → child.origin = "fork" →
      ∀ n, agents.lookup child.parentPid = some n →
      childDisplayName agents child = n ++ " from " ++ child.origin) ∧
    (child.identifier = none → child.path = none →
      (child.origin ≠ "fork" ∨ agents.lookup child.parentPid = none) →
      childDisplayName agents child = "<unknown>" ++ " from " ++ child.origin) ∧
    (∀ e, env.instrumentResult = .error e →
      ChildEvent.errorLogged ∈ onChildAdded agents child env) ∧
    (ChildEvent.resumeAttempted child.pid ∈ onChildAdded agents child env) := by
  refine ⟨?_, ?_, ?_, ?_, ?_, ?_⟩
  · intro i hi
    simp [childDisplayName, hi]
  · intro hi p hp
    simp [childDisplayName, hi, hp]
  · intro hi hp horigin n hn
    simp [childDisplayName, hi, hp, horigin, hn]
  · intro hi hp hrest
    rcases hrest with h | h
    · simp [childDisplayName, hi, hp, h]
    · by_cases hf : child.origin = "fork" <;> simp [childDisplayName, hi, hp, hf, h]
  · intro e he
    simp [onChildAdded, he]
  · cases henv : env.instrumentResult with
    | error e => simp [onChildAdded, henv]
    | ok v => cases hr : env.resumeFails <;> simp [onChildAdded, henv, hr]

/-- Witness for C6 (amended) at concrete children and environments. -/
theorem onChildAdded_nameAndResumeDiscipline_witness :
    childDisplayName [] ⟨some "p", some "i", "spawn", 0, 5⟩ = "i" ++ " from " ++ "spawn" ∧
    childDisplayName [] ⟨some "p", none, "exec", 0, 5⟩ = "p" ++ " from " ++ "exec" ∧
    childDisplayName [(3, "par")] ⟨none, none, "fork", 3, 5⟩ = "par" ++ " from " ++ "fork" ∧
    childDisplayName [] ⟨none, none, "fork", 3, 5⟩ = "<unknown>" ++ " from " ++ "fork" ∧
    ChildEvent.errorLogged ∈ onChildAdded [] ⟨none, none, "fork", 3, 5⟩ ⟨.error "boom", false⟩ ∧
    ChildEvent.resumeAttempted 5 ∈
      onChildAdded [] ⟨none, none, "fork", 3, 5⟩ ⟨.error "boom", false⟩ := by
  refine ⟨?_, ?_, ?_, ?_, ?_, ?_⟩
  · exact (onChildAdded_nameAndResumeDiscipline [] ⟨some "p", some "i", "spawn", 0, 5⟩
      ⟨.ok (), false⟩).1 "i" rfl
  · exact (onChildAdded_nameAndResumeDiscipline [] ⟨some "p", none, "exec", 0, 5⟩
      ⟨.ok (), false⟩).2.1 rfl "p" rfl
  · exact (onChildAdded_nameAndResumeDiscipline [(3, "par")] ⟨none, none, "fork", 3, 5⟩
      ⟨.ok (), false⟩).2.2.1 rfl rfl rfl "par" (by decide)
  · exact (onChildAdded_nameAndResumeDiscipline [] ⟨none, none, "fork", 3, 5⟩
      ⟨.ok (), false⟩).2.2.2.1 rfl rfl (Or.inr (by decide))
  · exact (onChildAdded_nameAndResumeDiscipline [] ⟨none, none, "fork", 3, 5⟩
      ⟨.error "boom", false⟩).2.2.2.2.1 "boom" rfl
  · exact (onChildAdded_nameAndResumeDiscipline [] ⟨none, none, "fork", 3, 5⟩
      ⟨.error "boom", false⟩).2.2.2.2.2

/-- Absence in the id→process map coincides with no process of that pid
existing. -/
theorem find_isNone_eq_all (ps : List Process) (pid : Nat) :
    (ps.reverse.find? (fun p => p.pid = pid)).isNone =
      ps.all (fun p => p.pid ≠ pid) := by
  rw [Bool.eq_iff_iff]
  simp [Option.isNone_iff_eq_none, List.find?_eq_none, List.all_eq_true]

/-- When every requested id is present, mapping ids through the
id→process map yields processes with exactly the requested pids, in
request order, all drawn from the enumeration. -/
theorem filterMap_find_pids (ids : List Nat) (ps : List Process)
    (h : ∀ pid ∈ ids, ∃ p ∈ ps, p.pid = pid) :
    (ids.filterMap (fun pid => ps.reverse.find? (fun p => p.pid = pid))).map
      Process.pid = ids ∧
    ∀ p ∈ ids.filterMap (fun pid => ps.reverse.find? (fun p => p.pid = pid)),
      p ∈ ps := by
  induction ids with
  | nil => simp
  | cons a rest ih =>
    obtain ⟨p0, hp0, hpid⟩ := h a (List.mem_cons_self a rest)
    have hsome : (ps.reverse.find? (fun p => p.pid = a)).isSome := by
      rw [List.find?_isSome]
      exact ⟨p0, List.mem_reverse.mpr hp0, by simp [hpid]⟩
    obtain ⟨q, hq⟩ := Option.isSome_iff_exists.mp hsome
    have hqpid : q.pid = a := by
      have := List.find?_some hq
      simpa using this
    have hqmem : q ∈ ps := List.mem_reverse.mp (List.mem_of_find?_eq_some hq)
    have ihh := ih (fun pid hmem => h pid (List.mem_cons_of_mem a hmem))
    constructor
    · simp [List.filterMap_cons, hq, hqpid, ihh.1]
    · intro p hp
      rw [List.filterMap_cons, hq] at hp
      rcases List.mem_cons.mp hp with h | h
      · exact h ▸ hqmem
      · exact ihh.2 p h

/-- C2: by-ids resolution is all-or-nothing — with every requested id
live it returns the processes for all requested ids in request order and
never fails; with any id absent it fails with one error listing every
missing id and returns no processes. -/
theorem findNumberedProcesses_allOrNothing (ids : List Nat) (ps : List Process) :
    ((∀ pid ∈ ids, ∃ p ∈ ps, p.pid = pid) →
      ∃ l, findNumberedProcesses ids ps = .ok l ∧ l.map Process.pid = ids ∧
        ∀ p ∈ l, p ∈ ps) ∧
    ((∃ pid ∈ ids, ∀ p ∈ ps, p.pid ≠ pid) →
      findNumberedProcesses ids ps = .error ("Failed to find PIDs: " ++
        String.intercalate ", "
          ((ids.filter (fun pid => ps.all (fun p => p.pid ≠ pid))).map toString))) := by
  constructor
  · intro h
    have hnone :
        ids.filter (fun pid => (ps.reverse.find? (fun p => p.pid = pid)).isNone) = [] := by
      rw [List.filter_eq_nil_iff]
      intro pid hmem
      obtain ⟨p0, hp0, hpid⟩ := h pid hmem
      simp [Option.isNone_iff_eq_none]
      exact ⟨p0, hp0, hpid⟩
    refine ⟨ids.filterMap (fun pid => ps.reverse.find? (fun p => p.pid = pid)), ?_, ?_, ?_⟩
    · simp only [findNumberedProcesses, hnone]
      simp
    · exact (filterMap_find_pids ids ps h).1
    · exact (filterMap_find_pids ids ps h).2
  · intro h
    obtain ⟨bad, hbadmem, hbad⟩ := h
    have hbadnone : (ps.reverse.find? (fun p => p.pid = bad)).isNone = true := by
      rw [Option.isNone_iff_eq_none, List.find?_eq_none]
      intro p hp
      simp [hbad p (List.mem_reverse.mp hp)]
    have hmemfilter : bad ∈
        ids.filter (fun pid => (ps.reverse.find? (fun p => p.pid = pid)).isNone) :=
      List.mem_filter.mpr ⟨hbadmem, hbadnone⟩
    have hne :
        (ids.filter (fun pid =>
          (ps.reverse.find? (fun p => p.pid = pid)).isNone)).length ≠ 0 := by
      intro h0
      rw [List.length_eq_zero] at h0
      rw [h0] at hmemfilter
      exact absurd hmemfilter (List.not_mem_nil bad)
    have hfilter :
        ids.filter (fun pid => (ps.reverse.find? (fun p => p.pid = pid)).isNone) =
        ids.filter (fun pid => ps.all (fun p => p.pid ≠ pid)) :=
      List.filter_congr (fun pid _ => find_isNone_eq_all ps pid)
    simp only [findNumberedProcesses, hne, if_true, hfilter]
    simp [hfilter] at hne ⊢
    exact hne

/-- Witness for C2 at a full batch and at a batch with a missing id. -/
theorem findNumberedProcesses_allOrNothing_witness :
    (∃ l, findNumberedProcesses [42, 43] [⟨43, "b"⟩, ⟨42, "a"⟩] = .ok l ∧
      l.map Process.pid = [42, 43] ∧ ∀ p ∈ l, p ∈ [⟨43, "b"⟩, (⟨42, "a"⟩ : Process)]) ∧
    findNumberedProcesses [42, 43] [⟨42, "a"⟩] = .error ("Failed to find PIDs: " ++
      String.intercalate ", "
        (([42, 43].filter (fun pid =>
          [(⟨42, "a"⟩ : Process)].all (fun p => p.pid ≠ pid))).map toString)) := by
  constructor
  · exact (findNumberedProcesses_allOrNothing [42, 43] [⟨43, "b"⟩, ⟨42, "a"⟩]).1
      (by decide)
  · exact (findNumberedProcesses_allOrNothing [42, 43] [⟨42, "a"⟩]).2
      ⟨43, by decide, by decide⟩

/-- A pid that is already tracked is never resumed by the add loop. -/
theorem addLoop_resume_count_tracked (target : TargetProcess) (procs : List Process) :
    ∀ (tracked : List Nat) (pid : Nat), tracked.contains pid = true →
      (addLoop target procs tracked).2.count (RunEvent.resumed pid) = 0 := by
  induction procs with
  | nil => intro tracked pid _; simp [addLoop]
  | cons p rest ih =>
    intro tracked pid h
    by_cases hc : tracked.contains p.pid
    · simp only [addLoop, hc, if_true]
      exact ih tracked pid h
    · have hpp : p.pid ≠ pid := by
        intro he
        rw [he] at hc
        exact hc h
      have hmem : pid ∈ tracked := by simpa using h
      have hcontains : (tracked ++ [p.pid]).contains pid = true := by
        simp [hmem]
      simp only [addLoop, hc, if_false, Bool.false_eq_true]
      rw [List.count_append, List.count_append]
      rw [ih (tracked ++ [p.pid]) pid hcontains]
      have h1 : (instrumentEvents p.pid).count (RunEvent.resumed pid) = 0 := by
        simp [instrumentEvents, List.count_cons]
      have h2 : ((if resumesAfterInit target then [RunEvent.resumed p.pid] else [])).count
          (RunEvent.resumed pid) = 0 := by
        split <;> simp [List.count_cons, hpp]
      omega

/-- The add loop resumes a newly tracked pid exactly once for a selector
that resumes after initialization, and never otherwise. -/
theorem addLoop_resume_count (target : TargetProcess) (procs : List Process) :
    ∀ (tracked : List Nat) (pid : Nat),
      (∃ p ∈ procs, p.pid = pid) → tracked.contains pid = false →
      (addLoop target procs tracked).2.count (RunEvent.resumed pid) =
        if resumesAfterInit target then 1 else 0 := by
  induction procs with
  | nil => intro tracked pid hmem _; simp at hmem
  | cons p rest ih =>
    intro tracked pid hmem hnew
    obtain ⟨p0, hp0, hp0pid⟩ := hmem
    by_cases hc : tracked.contains p.pid
    · rcases List.mem_cons.mp hp0 with rfl | hmem'
      · rw [hp0pid] at hc
        rw [hc] at hnew
        exact absurd hnew (by simp)
      · simp only [addLoop, hc, if_true]
        exact ih tracked pid ⟨p0, hmem', hp0pid⟩ hnew
    · simp only [addLoop, hc, if_false, Bool.false_eq_true]
      rw [List.count_append, List.count_append]
      have h1 : (instrumentEvents p.pid).count (RunEvent.resumed pid) = 0 := by
        simp [instrumentEvents, List.count_cons]
      by_cases hpp : p.pid = pid
      · have hcontains : (tracked ++ [p.pid]).contains pid = true := by
          simp [hpp]
        rw [addLoop_resume_count_tracked target rest (tracked ++ [p.pid]) pid hcontains]
        have h2 : ((if resumesAfterInit target then [RunEvent.resumed p.pid] else [])).count
            (RunEvent.resumed pid) = if resumesAfterInit target then 1 else 0 := by
          split <;> simp [List.count_cons, hpp]
        omega
      · have hrest : ∃ q ∈ rest, q.pid = pid := by
          rcases List.mem_cons.mp hp0 with rfl | hmem'
          · exact absurd hp0pid hpp
          · exact ⟨p0, hmem', hp0pid⟩
        have hnotmem : pid ∉ tracked := by simpa using hnew
        have hnew' : (tracked ++ [p.pid]).contains pid = false := by
          simp [hnotmem]
          exact fun he => hpp he.symm
        rw [ih (tracked ++ [p.pid]) pid hrest hnew']
        have h2 : ((if resumesAfterInit target then [RunEvent.resumed p.pid] else [])).count
            (RunEvent.resumed pid) = 0 := by
          split <;> simp [List.count_cons, hpp]
        omega

/-- For a selector that resumes after initialization, the add-loop trace
contains the resume of a newly tracked pid immediately after its
completed initialization. -/
theorem addLoop_initThenResume (target : TargetProcess) (procs : List Process)
    (hres : resumesAfterInit target = true) :
    ∀ (tracked : List Nat) (pid : Nat),
      (∃ p ∈ procs, p.pid = pid) → tracked.contains pid = false →
      ∃ a b, (addLoop target procs tracked).2 =
        a ++ [RunEvent.initCompleted pid, RunEvent.resumed pid] ++ b := by
  induction procs with
  | nil => intro tracked pid hmem _; simp at hmem
  | cons p rest ih =>
    intro tracked pid hmem hnew
    obtain ⟨p0, hp0, hp0pid⟩ := hmem
    by_cases hc : tracked.contains p.pid
    · rcases List.mem_cons.mp hp0 with rfl | hmem'
      · rw [hp0pid] at hc
        rw [hc] at hnew
        exact absurd hnew (by simp)
      · simp only [addLoop, hc, if_true]
        exact ih tracked pid ⟨p0, hmem', hp0pid⟩ hnew
    · by_cases hpp : p.pid = pid
      · have hnotmem : pid ∉ tracked := by simpa using hnew
        refine ⟨[RunEvent.attached pid, RunEvent.childGatingEnabled pid,
          RunEvent.scriptCreated pid, RunEvent.scriptLoaded pid],
          (addLoop target rest (tracked ++ [p.pid])).2, ?_⟩
        simp [addLoop, hc, hres, instrumentEvents, hpp, hnotmem]
      · have hrest : ∃ q ∈ rest, q.pid = pid := by
          rcases List.mem_cons.mp hp0 with rfl | hmem'
          · exact absurd hp0pid hpp
          · exact ⟨p0, hmem', hp0pid⟩
        have hnotmem : pid ∉ tracked := by simpa using hnew
        have hnew' : (tracked ++ [p.pid]).contains pid = false := by
          simp [hnotmem]
          exact fun he => hpp he.symm
        obtain ⟨a, b, hab⟩ := ih (tracked ++ [p.pid]) pid hrest hnew'
        refine ⟨(instrumentEvents p.pid ++
          (if resumesAfterInit target then [RunEvent.resumed p.pid] else [])) ++ a, b, ?_⟩
        simp only [addLoop, hc, if_false, Bool.false_eq_true, hab]
        simp [List.append_assoc]

/-- C8: a process obtained from a spawn or by-gating selector is resumed
exactly once by the initial setup path, and only after its initialization
step completed; for every other selector kind the setup path never
resumes the resolved pid. -/
theorem resume_exactlyOnceAfterInit (target : TargetProcess) (procs : List Process)
    (tracked : List Nat) (p : Process)
    (hp : p ∈ procs) (hnew : tracked.contains p.pid = false) :
    (resumesAfterInit target = true ↔
      ((∃ s, target = .spawn s) ∨ (∃ s, target = .byGating s))) ∧
    (resumesAfterInit target = true →
      (addLoop target procs tracked).2.count (RunEvent.resumed p.pid) = 1 ∧
      ∃ a b, (addLoop target procs tracked).2 =
        a ++ [RunEvent.initCompleted p.pid, RunEvent.resumed p.pid] ++ b) ∧
    (resumesAfterInit target = false →
      (addLoop target procs tracked).2.count (RunEvent.resumed p.pid) = 0) := by
  refine ⟨?_, ?_, ?_⟩
  · cases target <;> simp [resumesAfterInit]
  · intro h
    refine ⟨?_, addLoop_initThenResume target procs h tracked p.pid ⟨p, hp, rfl⟩ hnew⟩
    rw [addLoop_resume_count target procs tracked p.pid ⟨p, hp, rfl⟩ hnew, h]
    rfl
  · intro h
    rw [addLoop_resume_count target procs tracked p.pid ⟨p, hp, rfl⟩ hnew, h]
    rfl

/-- Witness for C8: a spawn target resumes pid 100 exactly once after its
initialization; a by-name target never resumes it. -/
theorem resume_exactlyOnceAfterInit_witness :
    (addLoop (.spawn "calc") [⟨100, "calc"⟩] []).2.count (RunEvent.resumed 100) = 1 ∧
    (addLoop (.byName "calc") [⟨100, "calc"⟩] []).2.count (RunEvent.resumed 100) = 0 := by
  constructor
  · exact ((resume_exactlyOnceAfterInit (.spawn "calc") [⟨100, "calc"⟩] [] ⟨100, "calc"⟩
      (by decide) rfl).2.1 rfl).1
  · exact (resume_exactlyOnceAfterInit (.byName "calc") [⟨100, "calc"⟩] [] ⟨100, "calc"⟩
      (by decide) rfl).2.2 rfl

/-- C5: while the by-gating wait is pending, an observed spawn whose
identifier or resolved name equals the awaited name resolves the wait
with that process and is not resumed by the handler; every other observed
spawn (unmatched, or not found in the enumeration) is resumed exactly
once by the handler; the matching process is later resumed exactly once
by the caller's add loop, right after its initialization. -/
theorem onSpawnAdded_gatingDiscipline (targetName : String)
    (enumerated : List Process) (sp : Spawn) :
    (∀ proc, enumerated.find? (fun p => p.pid = sp.pid) = some proc →
      (sp.identifier = some targetName ∨ proc.name = targetName) →
      onSpawnAdded targetName enumerated sp = .resolved proc ∧
      gatingHandlerResumes (onSpawnAdded targetName enumerated sp) = []) ∧
    (∀ proc, enumerated.find? (fun p => p.pid = sp.pid) = some proc →
      sp.identifier ≠ some targetName → proc.name ≠ targetName →
      onSpawnAdded targetName enumerated sp = .resumed sp.pid ∧
      (gatingHandlerResumes (onSpawnAdded targetName enumerated sp)).count sp.pid = 1) ∧
    (enumerated.find? (fun p => p.pid = sp.pid) = none →
      onSpawnAdded targetName enumerated sp = .resumed sp.pid ∧
      (gatingHandlerResumes (onSpawnAdded targetName enumerated sp)).count sp.pid = 1) ∧
    (∀ (procs : List Process) (tracked : List Nat) (proc : Process),
      proc ∈ procs → tracked.contains proc.pid = false →
      (addLoop (.byGating targetName) procs tracked).2.count
        (RunEvent.resumed proc.pid) = 1 ∧
      ∃ a b, (addLoop (.byGating targetName) procs tracked).2 =
        a ++ [RunEvent.initCompleted proc.pid, RunEvent.resumed proc.pid] ++ b) := by
  refine ⟨?_, ?_, ?_, ?_⟩
  · intro proc hfind hmatch
    constructor
    · simp [onSpawnAdded, hfind, hmatch]
    · simp [onSpawnAdded, hfind, hmatch, gatingHandlerResumes]
  · intro proc hfind hid hname
    constructor
    · simp [onSpawnAdded, hfind, hid, hname]
    · simp [onSpawnAdded, hfind, hid, hname, gatingHandlerResumes]
  · intro hfind
    constructor
    · simp [onSpawnAdded, hfind]
    · simp [onSpawnAdded, hfind, gatingHandlerResumes]
  · intro procs tracked proc hmem hnew
    refine ⟨?_, addLoop_initThenResume (.byGating targetName) procs rfl tracked proc.pid
      ⟨proc, hmem, rfl⟩ hnew⟩
    rw [addLoop_resume_count (.byGating targetName) procs tracked proc.pid
      ⟨proc, hmem, rfl⟩ hnew]
    rfl

/-- Witness for C5 at a matching spawn, a non-matching spawn, and a
by-gating add loop. -/
theorem onSpawnAdded_gatingDiscipline_witness :
    (onSpawnAdded "calc" [⟨5, "calc"⟩] ⟨none, 5⟩ = .resolved ⟨5, "calc"⟩ ∧
      gatingHandlerResumes (onSpawnAdded "calc" [⟨5, "calc"⟩] ⟨none, 5⟩) = []) ∧
    (onSpawnAdded "calc" [⟨6, "other"⟩] ⟨none, 6⟩ = .resumed 6 ∧
      (gatingHandlerResumes (onSpawnAdded "calc" [⟨6, "other"⟩] ⟨none, 6⟩)).count 6 = 1) ∧
    (addLoop (.byGating "calc") [⟨5, "calc"⟩] []).2.count (RunEvent.resumed 5) = 1 := by
  refine ⟨?_, ?_, ?_⟩
  · exact (onSpawnAdded_gatingDiscipline "calc" [⟨5, "calc"⟩] ⟨none, 5⟩).1
      ⟨5, "calc"⟩ (by decide) (Or.inr rfl)
  · exact (onSpawnAdded_gatingDiscipline "calc" [⟨6, "other"⟩] ⟨none, 6⟩).2.1
      ⟨6, "other"⟩ (by decide) (by decide) (by decide)
  · exact ((onSpawnAdded_gatingDiscipline "calc" [] ⟨none, 0⟩).2.2.2
      [⟨5, "calc"⟩] [] ⟨5, "calc"⟩ (by decide) rfl).1

/-- C3: whenever a step of `Agent.inject` throws, the partially-built
agent is disposed before the failure is rethrown: every session attached
during the run is detached and every script created is unloaded, and all
teardown ops come after the build steps; on success no teardown runs and
the returned agent is complete (session and script both present), so no
partial agent is ever returned. -/
theorem inject_disposesPartialOnFailure (env : InjectEnv) :
    (∀ e, (Agent.inject env).1 = .error e →
      (∀ s, InjectEvent.attached s ∈ (Agent.inject env).2 →
        InjectEvent.teardown (.detachSession s env.detachFails) ∈ (Agent.inject env).2) ∧
      (∀ sc, InjectEvent.scriptCreated sc ∈ (Agent.inject env).2 →
        InjectEvent.teardown (.unloadScript sc env.unloadFails) ∈ (Agent.inject env).2) ∧
      ((Agent.inject env).2.filter (fun ev => !ev.isTeardown) ++
        (Agent.inject env).2.filter (fun ev => ev.isTeardown) = (Agent.inject env).2)) ∧
    (∀ a, (Agent.inject env).1 = .ok a → a.session.isSome ∧ a.script.isSome ∧
      ∀ ev ∈ (Agent.inject env).2, ev.isTeardown = false) := by
  obtain ⟨ar, gr, cr, lr, ir, u, d⟩ := env
  cases ar <;> cases gr <;> cases cr <;> cases lr <;> cases ir <;>
    simp [Agent.inject, Agent.dispose, InjectEvent.isTeardown]

/-- Witness for C3: a failing script load triggers unload of the created
script and detach of the attached session. -/
theorem inject_disposesPartialOnFailure_witness :
    (InjectEvent.teardown (.detachSession 1 false) ∈
      (Agent.inject ⟨.ok 1, .ok (), .ok 2, .error "boom", .ok (), false, false⟩).2) ∧
    (InjectEvent.teardown (.unloadScript 2 false) ∈
      (Agent.inject ⟨.ok 1, .ok (), .ok 2, .error "boom", .ok (), false, false⟩).2) := by
  have h := (inject_disposesPartialOnFailure
    ⟨.ok 1, .ok (), .ok 2, .error "boom", .ok (), false, false⟩).1 "boom" rfl
  exact ⟨h.1 1 (by decide), h.2.1 2 (by decide)⟩

/-- The device ids of a controller list, in creation order. -/
def ctrlIds (ctrls : List ControllerRec) : List String :=
  ctrls.map ControllerRec.deviceId

/-- Adding a target batch reuses the controller of an already-seen device
id and appends a new controller otherwise. -/
theorem addTargetBatch_ids (ctrls : List ControllerRec) (did : String)
    (procs : List TargetProcess) :
    ctrlIds (addTargetBatch ctrls did procs) =
      if did ∈ ctrlIds ctrls then ctrlIds ctrls else ctrlIds ctrls ++ [did] := by
  by_cases h : ctrls.any (fun c => c.deviceId = did)
  · have hmem : did ∈ ctrlIds ctrls := by
      simp only [ctrlIds, List.mem_map]
      obtain ⟨c, hc, he⟩ := List.any_eq_true.mp h
      exact ⟨c, hc, of_decide_eq_true he⟩
    rw [if_pos hmem]
    simp only [addTargetBatch, h, if_true, ctrlIds, List.map_map]
    apply List.map_congr_left
    intro c _
    by_cases hcd : c.deviceId = did <;> simp [hcd]
  · have hmem : did ∉ ctrlIds ctrls := by
      simp only [ctrlIds, List.mem_map]
      rintro ⟨c, hc, he⟩
      exact h (List.any_eq_true.mpr ⟨c, hc, by simp [he]⟩)
    rw [if_neg hmem]
    simp [addTargetBatch, h, ctrlIds]

/-- The target loop keeps device ids distinct and its final id set is the
initial ids together with the ids of all processed targets. -/
theorem foldAdd_ids (targets : List (String × List TargetProcess)) :
    ∀ ctrls : List ControllerRec, (ctrlIds ctrls).Nodup →
      (ctrlIds (targets.foldl (fun cs t => addTargetBatch cs t.1 t.2) ctrls)).Nodup ∧
      (∀ y, y ∈ ctrlIds (targets.foldl (fun cs t => addTargetBatch cs t.1 t.2) ctrls) ↔
        (y ∈ ctrlIds ctrls ∨ y ∈ targets.map Prod.fst)) := by
  induction targets with
  | nil =>
    intro ctrls h
    exact ⟨h, fun y => by simp⟩
  | cons t rest ih =>
    intro ctrls h
    rw [List.foldl_cons]
    have hids := addTargetBatch_ids ctrls t.1 t.2
    by_cases hmem : t.1 ∈ ctrlIds ctrls
    · rw [if_pos hmem] at hids
      have h' : (ctrlIds (addTargetBatch ctrls t.1 t.2)).Nodup := by rw [hids]; exact h
      obtain ⟨hnd, hiff⟩ := ih (addTargetBatch ctrls t.1 t.2) h'
      refine ⟨hnd, fun y => ?_⟩
      rw [hiff y, hids]
      simp only [List.map_cons, List.mem_cons]
      constructor
      · rintro (h1 | h2)
        · exact Or.inl h1
        · exact Or.inr (Or.inr h2)
      · rintro (h1 | h2 | h3)
        · exact Or.inl h1
        · exact Or.inl (h2 ▸ hmem)
        · exact Or.inr h3
    · rw [if_neg hmem] at hids
      have h' : (ctrlIds (addTargetBatch ctrls t.1 t.2)).Nodup := by
        rw [hids]
        simp [List.nodup_append, h, hmem]
      obtain ⟨hnd, hiff⟩ := ih (addTargetBatch ctrls t.1 t.2) h'
      refine ⟨hnd, fun y => ?_⟩
      rw [hiff y, hids]
      simp only [List.map_cons, List.mem_cons, List.mem_append, List.mem_singleton]
      tauto

/-- Each controller produced by the target loop accumulates exactly the
selector batches of the targets naming its device id, in order. -/
theorem foldAdd_batches (targets : List (String × List TargetProcess)) :
    ∀ ctrls : List ControllerRec,
      ∀ c ∈ targets.foldl (fun cs t => addTargetBatch cs t.1 t.2) ctrls,
      (∃ c0 ∈ ctrls, c0.deviceId = c.deviceId ∧
        c.batches = c0.batches ++
          (targets.filter (fun t => t.1 = c.deviceId)).map Prod.snd) ∨
      (c.deviceId ∉ ctrlIds ctrls ∧
        c.batches = (targets.filter (fun t => t.1 = c.deviceId)).map Prod.snd) := by
  induction targets with
  | nil =>
    intro ctrls c hc
    exact Or.inl ⟨c, hc, rfl, by simp⟩
  | cons t rest ih =>
    intro ctrls c hc
    rw [List.foldl_cons] at hc
    rcases ih (addTargetBatch ctrls t.1 t.2) c hc with ⟨c0', hc0', hid', hb'⟩ | ⟨hnid', hb'⟩
    · by_cases hany : ctrls.any (fun x => x.deviceId = t.1)
      · rw [addTargetBatch, if_pos hany] at hc0'
        obtain ⟨c0, hc0, hupd⟩ := List.mem_map.mp hc0'
        by_cases hcd : c0.deviceId = t.1
        · rw [if_pos hcd] at hupd
          have hid0 : c0.deviceId = c.deviceId := by rw [← hid', ← hupd]
          have hbat0 : c0'.batches = c0.batches ++ [t.2] := by rw [← hupd]
          have hdid : t.1 = c.deviceId := by rw [← hid0, hcd]
          left
          refine ⟨c0, hc0, hid0, ?_⟩
          rw [hb', hbat0]
          simp [List.filter_cons, hdid]
        · rw [if_neg hcd] at hupd
          subst hupd
          have hne : t.1 ≠ c.deviceId := by
            rw [← hid']
            exact fun he => hcd he.symm
          left
          refine ⟨c0, hc0, hid', ?_⟩
          rw [hb']
          simp [List.filter_cons, hne]
      · rw [addTargetBatch, if_neg hany] at hc0'
        rcases List.mem_append.mp hc0' with hin | hnew
        · have hne : t.1 ≠ c.deviceId := by
            rw [← hid']
            intro he
            exact hany (List.any_eq_true.mpr ⟨c0', hin, by simp [he.symm]⟩)
          left
          refine ⟨c0', hin, hid', ?_⟩
          rw [hb']
          simp [List.filter_cons, hne]
        · have hnewc : c0' = ⟨t.1, [t.2]⟩ := by simpa using hnew
          have hdid : t.1 = c.deviceId := by rw [← hid', hnewc]
          have hnotmem : c.deviceId ∉ ctrlIds ctrls := by
            rw [← hdid]
            simp only [ctrlIds, List.mem_map]
            rintro ⟨x, hx, hxe⟩
            exact hany (List.any_eq_true.mpr ⟨x, hx, by simp [hxe]⟩)
          right
          refine ⟨hnotmem, ?_⟩
          rw [hb', hnewc]
          simp [List.filter_cons, hdid]
    · have ht1 : t.1 ∈ ctrlIds (addTargetBatch ctrls t.1 t.2) := by
        by_cases hmem : t.1 ∈ ctrlIds ctrls
        · rw [addTargetBatch_ids, if_pos hmem]; exact hmem
        · rw [addTargetBatch_ids, if_neg hmem]; simp
      have hsub : ctrlIds ctrls ⊆ ctrlIds (addTargetBatch ctrls t.1 t.2) := by
        by_cases hmem : t.1 ∈ ctrlIds ctrls
        · rw [addTargetBatch_ids, if_pos hmem]
          exact List.Subset.refl _
        · rw [addTargetBatch_ids, if_neg hmem]
          exact List.subset_append_left _ _
      have hne : t.1 ≠ c.deviceId := fun he => hnid' (he ▸ ht1)
      right
      refine ⟨fun hm => hnid' (hsub hm), ?_⟩
      rw [hb']
      simp [List.filter_cons, hne]

/-- C9: the application creates exactly one controller per distinct
resolved device id — the produced device ids are duplicate-free and are
exactly the ids the targets resolve to — and every target's selector
batch is added to the one controller of its device id, in configuration
order. -/
theorem oneControllerPerDeviceId (targets : List (String × List TargetProcess)) :
    ((runControllers targets).map ControllerRec.deviceId).Nodup ∧
    (∀ did, did ∈ (runControllers targets).map ControllerRec.deviceId ↔
      did ∈ targets.map Prod.fst) ∧
    (∀ c ∈ runControllers targets,
      c.batches = (targets.filter (fun t => t.1 = c.deviceId)).map Prod.snd) := by
  have hids := foldAdd_ids targets [] (by simp [ctrlIds])
  refine ⟨hids.1, fun did => ?_, fun c hc => ?_⟩
  · have h := hids.2 did
    simpa [ctrlIds, runControllers] using h
  · rcases foldAdd_batches targets [] c hc with ⟨c0, hc0, _⟩ | ⟨_, hb⟩
    · exact absurd hc0 (List.not_mem_nil c0)
    · exact hb

/-- Witness for C9: two targets naming the same device share one
controller carrying both selector batches. -/
theorem oneControllerPerDeviceId_witness :
    (⟨"usb", [[TargetProcess.spawn "a"], [TargetProcess.byFrontmost]]⟩ : ControllerRec).batches =
      (([("usb", [TargetProcess.spawn "a"]), ("usb", [TargetProcess.byFrontmost])].filter
        (fun t => t.1 = (⟨"usb", [[TargetProcess.spawn "a"], [TargetProcess.byFrontmost]]⟩ :
          ControllerRec).deviceId)).map Prod.snd) :=
  (oneControllerPerDeviceId
    [("usb", [TargetProcess.spawn "a"]), ("usb", [TargetProcess.byFrontmost])]).2.2
    ⟨"usb", [[TargetProcess.spawn "a"], [TargetProcess.byFrontmost]]⟩ (by decide)

end FridaTool
